import Mathlib

/-!
# Verification of the CRM aged-case follow-up pipeline

Shallow embedding of the ingestion/normalization pipeline
(`src/src/parser.py`, `src/Src/parser.py`), the grouping/ranking stage
(`src/src/grouper.py`) and the filtering applied by the entry point and the
draft/delivery stages (`main.py`, `src/Src/email_builder.py`,
`src/src/email_sender.py`).

A pandas `DataFrame` is embedded as a list of raw column names (the header)
together with a list of rows.  A row holds one optional cell per canonical
column name (a cell is `none` when the column is absent from the frame or the
value is missing/NaN); columns other than the seven canonical ones are never
read by the program, so they are not modelled.  Machine wall-clock "today" is
an explicit `Int` day-number parameter, fixed for a run.
-/

namespace AKFollowup

/-- A `created_date` cell: either a parseable date (represented by its day
number) or an unparseable value (`pd.to_datetime` raises on it, day counts
let `(today - created_date).dt.days` be plain integer subtraction). -/
inductive DateCell where
  | good (day : Int)
  | bad
  deriving DecidableEq, Repr

/-- An `age_days` source cell: numeric, or non-numeric
(`pd.to_numeric(..., errors="coerce")` turns the latter into NaN). -/
inductive AgeCell where
  | num (n : Int)
  | nonnum
  deriving DecidableEq, Repr

/-- One input row.  Each field is the cell of the like-named canonical column
(`none` = NaN or column absent). -/
structure Row where
  case_id : Option String := none
  case_title : Option String := none
  owner_name : Option String := none
  owner_email : Option String := none
  created_date : Option DateCell := none
  age_days : Option AgeCell := none
  priority : Option String := none
  deriving DecidableEq, Repr

/-- A validated output row of `load_and_validate`: `created_date` is parsed
to a day number and `age_days` is resolved to an integer (or NaN). -/
structure VRow where
  case_id : Option String
  case_title : Option String
  owner_name : Option String
  owner_email : Option String
  created_date : Option Int
  age_days : Option Int
  priority : Option String
  deriving DecidableEq, Repr

/-- Python whitespace for `str.strip`. -/
def isPySpace (c : Char) : Bool :=
  c = ' ' || c = '\t' || c = '\n' || c = '\r' || c = '\x0b' || c = '\x0c'

/-- Python `str.strip()` (no argument): drop leading and trailing
whitespace. -/
def pyStrip (s : String) : String :=
  String.mk (((s.data.dropWhile isPySpace).reverse.dropWhile isPySpace).reverse)

/-- Python `str.lower` (ASCII suffices for the values handled here). -/
def pyLower (s : String) : String :=
  String.mk (s.data.map Char.toLower)

/-- Python `str.replace(" ", "_")`: a single-character pattern, so a
character-wise map. -/
def replaceSpaces (s : String) : String :=
  String.mk (s.data.map (fun c => if c = ' ' then '_' else c))

/-- Python `str.capitalize`: first character upper-cased, the rest
lower-cased (ASCII suffices for the values handled here). -/
def pyCapitalize (s : String) : String :=
  match s.data with
  | [] => ""
  | c :: cs => String.mk (c.toUpper :: cs.map Char.toLower)

/-- Python `str.title`: the first letter of every alphabetic run upper-cased,
the rest lower-cased. -/
def pyTitle (s : String) : String :=
  (String.mk (s.data.foldl
    (fun (acc : List Char × Bool) c =>
      if c.isAlpha then
        ((if acc.2 then c.toLower else c.toUpper) :: acc.1, true)
      else (c :: acc.1, false))
    ([], false)).1.reverse)

/-- `parser.py` line 57: `c.strip().lower().replace(" ", "_")`. -/
def normalizeColName (c : String) : String :=
  replaceSpaces (pyLower (pyStrip c))

/-- `src/src/parser.py` lines 12-19: CRM-export column names to internal
names. -/
def COLUMN_MAP : List (String × String) :=
  [("(do_not_modify)_case", "case_id"),
   ("owner", "owner_name"),
   ("created_on", "created_date"),
   ("case_title", "case_title"),
   ("title", "case_title"),
   ("age", "age_days")]

/-- `df.rename(columns=COLUMN_MAP)` on a single column name. -/
def renameCol (c : String) : String :=
  (COLUMN_MAP.lookup c).getD c

/-- The column names of the frame after normalization (line 57) and renaming
(line 60). -/
def canonCols (header : List String) : List String :=
  header.map (fun c => renameCol (normalizeColName c))

/-- Column-presence test (`c in df.columns`). -/
def hasCol (cols : List String) (c : String) : Bool :=
  cols.contains c

/-- `df["c"] = ...` adds column `c` when it is not already present. -/
def insertCol (cols : List String) (c : String) : List String :=
  if hasCol cols c then cols else cols ++ [c]

/-- `src/src/parser.py` lines 22-28: owner name to email lookup. -/
def OWNER_EMAIL_MAP : List (String × String) :=
  [("Fadi Hanna", "FHanna@info-sys.com"),
   ("Georges Mouaikel", "GMouaikel@info-sys.com"),
   ("Jana Sweid", "JSweid@info-sys.com"),
   ("Mennatullah El Bahr", "MElBahr@info-sys.com"),
   ("Rebecca Estephan", "REstephan@info-sys.com")]

/-- `src/src/parser.py` line 31. -/
def MANAGER_OWNER_NAME : String := "Abdo Khoury"

/-- `src/src/parser.py` line 33 (a Python set; listed here in source order). -/
def REQUIRED_COLUMNS : List String :=
  ["case_id", "case_title", "owner_name", "owner_email", "created_date"]

/-- `src/src/parser.py` line 35. -/
def VALID_PRIORITIES : List String := ["High", "Normal", "Medium", "Low"]

/-- `src/Src/parser.py` line 11 (the legacy variant has no `Normal`). -/
def VALID_PRIORITIES_LEGACY : List String := ["High", "Medium", "Low"]

/-- A row as pandas sees it: cells of columns absent from the frame do not
exist, so they are forced to `none`. -/
def maskRow (cols : List String) (r : Row) : Row :=
  { case_id := if hasCol cols "case_id" then r.case_id else none
    case_title := if hasCol cols "case_title" then r.case_title else none
    owner_name := if hasCol cols "owner_name" then r.owner_name else none
    owner_email := if hasCol cols "owner_email" then r.owner_email else none
    created_date := if hasCol cols "created_date" then r.created_date else none
    age_days := if hasCol cols "age_days" then r.age_days else none
    priority := if hasCol cols "priority" then r.priority else none }

/-- `src/src/parser.py` lines 63-64: strip `owner_name`, derive `owner_email`
from the owner directory (missing mapping gives NaN). -/
def deriveEmail (r : Row) : Row :=
  let nm := r.owner_name.map pyStrip
  { r with owner_name := nm, owner_email := nm.bind (fun s => OWNER_EMAIL_MAP.lookup s) }

/-- `src/src/parser.py` line 70: keep rows not owned by the manager
(a NaN owner name is kept, as in pandas `!=`). -/
def notMgr (r : Row) : Bool :=
  decide (r.owner_name ≠ some MANAGER_OWNER_NAME)

/-- `src/src/parser.py` line 76: keep rows not owned by Raji Aoun. -/
def notRaji (r : Row) : Bool :=
  decide (r.owner_name ≠ some "Raji Aoun")

/-- `parser.py` priority normalization of one cell (lines 90-100 of
`src/src/parser.py`, lines 38-48 of `src/Src/parser.py`): fill NaN with
"Medium", strip, capitalize, coerce values outside the valid set to
"Medium".  The two variants differ only in the valid set. -/
def normalizePriorityWith (valid : List String) (hasP : Bool) (p : Option String) : String :=
  if hasP then
    let q := pyCapitalize (pyStrip (p.getD "Medium"))
    if valid.contains q then q else "Medium"
  else "Medium"

/-- Priority normalization of the feature-complete variant
(`src/src/parser.py` lines 90-100). -/
def normalizePriority (hasP : Bool) (p : Option String) : String :=
  normalizePriorityWith VALID_PRIORITIES hasP p

/-- The per-row effect of the priority block. -/
def prioritizeRow (hasP : Bool) (r : Row) : Row :=
  { r with priority := some (normalizePriority hasP r.priority) }

/-- `pd.to_datetime` on one cell (NaN stays NaT; a `bad` cell aborts the run,
checked separately). -/
def parseDate : Option DateCell → Option Int
  | some (DateCell.good d) => some d
  | _ => none

/-- `pd.to_numeric(..., errors="coerce")` on one cell. -/
def coerceAge : Option AgeCell → Option Int
  | some (AgeCell.num n) => some n
  | _ => none

/-- `src/src/parser.py` lines 102-118 on one row: parse the date, coerce an
explicit age numerically when the `age_days` column exists, and fill the
missing/non-numeric ages with `today - created_date` in days; without an
`age_days` column every age is computed that way. -/
def finalizeRow (hasAge : Bool) (today : Int) (r : Row) : VRow :=
  let cd := parseDate r.created_date
  let calcAge := cd.map (fun d => today - d)
  { case_id := r.case_id
    case_title := r.case_title
    owner_name := r.owner_name
    owner_email := r.owner_email
    created_date := cd
    age_days :=
      if hasAge then
        match coerceAge r.age_days with
        | some n => some n
        | none => calcAge
      else calcAge
    priority := r.priority }

/-- `src/src/parser.py` line 122: `dropna(subset=["owner_email", "case_id"])`. -/
def keepRow (v : VRow) : Bool :=
  v.owner_email.isSome && v.case_id.isSome

/-- The columns of the frame after the `owner_email` derivation (line 64
creates the column unconditionally). -/
def cols1 (header : List String) : List String :=
  insertCol (canonCols header) "owner_email"

/-- `"priority" in df.columns` at line 91. -/
def hasPriorityCol (header : List String) : Bool :=
  hasCol (cols1 header) "priority"

/-- `"age_days" in df.columns` at line 110. -/
def hasAgeCol (header : List String) : Bool :=
  hasCol (cols1 header) "age_days"

/-- The required-column deficit reported at lines 84-88. -/
def missingRequired (header : List String) : List String :=
  REQUIRED_COLUMNS.filter (fun c => !(hasCol (cols1 header) c))

/-- Rows after stripping/derivation (lines 63-64) and the manager and
Raji Aoun exclusions (lines 66-76). -/
def filteredRows (header : List String) (rows : List Row) : List Row :=
  ((((rows.map (maskRow (canonCols header))).map deriveEmail).filter
    notMgr).filter notRaji)

/-- Rows after the priority block (lines 90-100). -/
def prioritizedRows (header : List String) (rows : List Row) : List Row :=
  (filteredRows header rows).map (prioritizeRow (hasPriorityCol header))

/-- `pd.to_datetime(df["created_date"])` raises when any cell is
unparseable (lines 103-108). -/
def anyBadDate (header : List String) (rows : List Row) : Bool :=
  (prioritizedRows header rows).any (fun r => decide (r.created_date = some DateCell.bad))

/-- The rows `load_and_validate` returns on the successful path
(lines 102-128). -/
def validRows (header : List String) (rows : List Row) (today : Int) : List VRow :=
  (((prioritizedRows header rows).map
    (finalizeRow (hasAgeCol header) today)).filter keepRow)

/-- How a run of `src/src/parser.py`'s `load_and_validate` ends without
producing a validated frame. -/
inductive LoadError where
  /-- an uncaught pandas `KeyError` on a column access (line 63 reads
  `df["owner_name"]` before the required-column check) -/
  | keyError (col : String)
  /-- the descriptive required-column error followed by `sys.exit(1)`
  (lines 84-88) -/
  | missingColumns (missing : List String)
  /-- the descriptive date-parse error followed by `sys.exit(1)`
  (lines 103-108) -/
  | dateParseError
  deriving DecidableEq, Repr

/-- `src/src/parser.py` `load_and_validate` (lines 38-128), file I/O aside:
the frame is given as its raw header plus rows, `today` is the run-start
date.  The order of effects follows the source: the `owner_name` access of
line 63 (which raises `KeyError` when the column is missing), the owner
exclusions, the required-column check, priority normalization, date
parsing, age resolution, and the final `dropna`. -/
def load_and_validate (header : List String) (rows : List Row) (today : Int) :
    Except LoadError (List VRow) :=
  if hasCol (canonCols header) "owner_name" then
    if missingRequired header = [] then
      if anyBadDate header rows then Except.error LoadError.dateParseError
      else Except.ok (validRows header rows today)
    else Except.error (LoadError.missingColumns (missingRequired header))
  else Except.error (LoadError.keyError "owner_name")

/- `src/Src/parser.py` `load_and_validate` (the coexisting legacy variant):
no column renaming, no owner-email derivation, no owner exclusions, the
required-column check first, the smaller valid-priority set, and
`age_days` always recomputed as `today - created_date`. -/
namespace SrcVariant

/-- Columns after `src/Src/parser.py` line 29 (normalization only; the
legacy variant has no rename map). -/
def legacyCols (header : List String) : List String :=
  header.map normalizeColName

/-- The required-column deficit of `src/Src/parser.py` lines 32-36. -/
def missingRequired (header : List String) : List String :=
  REQUIRED_COLUMNS.filter (fun c => !(hasCol (legacyCols header) c))

/-- Rows after the priority block of `src/Src/parser.py` lines 38-48. -/
def prioritizedRows (header : List String) (rows : List Row) : List Row :=
  (rows.map (maskRow (legacyCols header))).map
    (fun r => { r with priority := some (normalizePriorityWith VALID_PRIORITIES_LEGACY
      (hasCol (legacyCols header) "priority") r.priority) })

/-- Date-parse failure test of `src/Src/parser.py` lines 51-56. -/
def anyBadDate (header : List String) (rows : List Row) : Bool :=
  (prioritizedRows header rows).any (fun r => decide (r.created_date = some DateCell.bad))

/-- The per-row finish of `src/Src/parser.py` lines 58-63: the age is always
`today - created_date` (an explicit age column is ignored and overwritten). -/
def finishRow (today : Int) (r : Row) : VRow :=
  let cd := parseDate r.created_date
  { case_id := r.case_id
    case_title := r.case_title
    owner_name := r.owner_name
    owner_email := r.owner_email
    created_date := cd
    age_days := cd.map (fun d => today - d)
    priority := r.priority }

/-- The rows returned on the successful path of `src/Src/parser.py`. -/
def validRows (header : List String) (rows : List Row) (today : Int) : List VRow :=
  ((prioritizedRows header rows).map (finishRow today)).filter keepRow

/-- `src/Src/parser.py` `load_and_validate` (lines 14-69). -/
def load_and_validate (header : List String) (rows : List Row) (today : Int) :
    Except LoadError (List VRow) :=
  if missingRequired header = [] then
    if anyBadDate header rows then Except.error LoadError.dateParseError
    else Except.ok (validRows header rows today)
  else Except.error (LoadError.missingColumns (missingRequired header))

end SrcVariant

/-- One entry of the `top3`/`all_cases` lists built by `_to_case_list`
(`src/src/grouper.py` lines 47-58).  `int(row["age_days"])` and
`strftime` are kept as the underlying optional values (both raise in the
source when the value is NaN/NaT, which no claim exercises). -/
structure Case where
  case_id : String
  case_title : String
  age_days : Option Int
  priority : String
  created_date : Option Int
  deriving DecidableEq, Repr

/-- `_to_case_list` on one row: `str(...)` renders a NaN cell as "nan". -/
def toCase (r : VRow) : Case :=
  { case_id := pyStrip (r.case_id.getD "nan")
    case_title := pyStrip (r.case_title.getD "nan")
    age_days := r.age_days
    priority := pyStrip (r.priority.getD "nan")
    created_date := r.created_date }

/-- One owner digest (`src/src/grouper.py` lines 36-42). -/
structure Digest where
  owner_name : String
  owner_email : String
  total_cases : Nat
  top3 : List Case
  all_cases : List Case
  deriving DecidableEq, Repr

/-- Strict comparison on the `age_days` sort key; NaN counts lowest, so it
lands last in a descending sort (pandas `na_position="last"`). -/
def ageLtB : Option Int → Option Int → Bool
  | none, none => false
  | none, some _ => true
  | some _, none => false
  | some x, some y => decide (x < y)

/-- The descending-sort relation: the earlier record is at least as old. -/
def rowGe (a b : VRow) : Prop :=
  ageLtB a.age_days b.age_days = false

/-- `rowGe` carried over to the rendered case dicts. -/
def caseGe (a b : Case) : Prop :=
  ageLtB a.age_days b.age_days = false

instance : DecidableRel rowGe := fun a b =>
  inferInstanceAs (Decidable (ageLtB a.age_days b.age_days = false))

instance : IsTotal VRow rowGe where
  total a b := by
    unfold rowGe ageLtB
    rcases a.age_days with _ | x <;> rcases b.age_days with _ | y <;> simp <;> omega

instance : IsTrans VRow rowGe where
  trans a b c := by
    unfold rowGe ageLtB
    rcases a.age_days with _ | x <;> rcases b.age_days with _ | y <;>
      rcases c.age_days with _ | z <;> simp <;> omega

/-- What pandas documents of `group.sort_values("age_days", ascending=False)`
(`src/src/grouper.py` line 28; the call passes no `kind`, so the default
`"quicksort"` is used, which pandas documents as not stable): the result is
a permutation of the input, ordered by non-increasing `age_days` with NaN
last.  The order of equal keys is implementation-defined, so the grouper is
embedded relative to any sort satisfying this contract. -/
def SortSpec (f : List VRow → List VRow) : Prop :=
  ∀ l, (f l).Perm l ∧ (f l).Pairwise rowGe

/-- The stable realization of the contract (what numpy's quicksort computes
on partitions small enough for its insertion-sort path, after pandas
`nargsort` double reversal for `ascending=False`). -/
def stableSortDesc (l : List VRow) : List VRow :=
  List.insertionSort rowGe l

/-- A tie-reversing realization of the contract: stable-sort the reversed
list.  Equal-age records come out in reversed input order. -/
def tieReversingSort (l : List VRow) : List VRow :=
  stableSortDesc l.reverse

/-- The group keys of `df.groupby("owner_email")` (NaN keys are dropped by
pandas).  pandas yields the keys sorted; the digest output is a mapping
keyed by owner, so only its contents matter to the spec, and the keys are
kept here in first-occurrence order. -/
def ownerKeys (rows : List VRow) : List String :=
  (rows.filterMap (fun r => r.owner_email)).dedup

/-- One owner's partition, in original row order (pandas `groupby` preserves
the within-group order). -/
def ownerGroup (rows : List VRow) (k : String) : List VRow :=
  rows.filter (fun r => decide (r.owner_email = some k))

/-- The digest of one owner (`src/src/grouper.py` lines 26-42), built with
the sort realization `f`. -/
def mkDigest (f : List VRow → List VRow) (rows : List VRow) (k : String) : Digest :=
  let sortedG := f (ownerGroup rows k)
  let allCases := sortedG.map toCase
  { owner_name := pyTitle (pyStrip ((sortedG.head?.bind (fun r => r.owner_name)).getD "nan"))
    owner_email := k
    total_cases := sortedG.length
    top3 := allCases.take 3
    all_cases := allCases }

/-- `src/src/grouper.py` `group_by_owner` (lines 8-44). -/
def group_by_owner (f : List VRow → List VRow) (rows : List VRow) :
    List (String × Digest) :=
  (ownerKeys rows).map (fun k => (k, mkDigest f rows k))

/-- `if filter_owner and owner_email != filter_owner: continue`
(`src/Src/email_builder.py` line 34, `src/src/email_sender.py` line 34);
an empty string is falsy in Python, so it disables the filter. -/
def skipOwner (filterOwner : Option String) (k : String) : Bool :=
  match filterOwner with
  | none => false
  | some s => decide (s ≠ "") && decide (k ≠ s)

/-- `src/Src/email_builder.py` `build_drafts`: one draft per non-skipped
owner.  Template rendering is external; the draft payload is modelled as
the digest handed to the template. -/
def build_drafts (owners : List (String × Digest)) (filterOwner : Option String) :
    List (String × Digest) :=
  owners.filter (fun p => !(skipOwner filterOwner p.1))

/-- `src/src/email_sender.py` `send_emails`: one delivery attempt per
non-skipped draft.  The returned list is the owners whose delivery is
attempted (the SENT/FAILED status comes from the external channel). -/
def send_emails (drafts : List (String × Digest)) (filterOwner : Option String) :
    List String :=
  (drafts.filter (fun p => !(skipOwner filterOwner p.1))).map (fun p => p.1)

/-- `main.py` `main` (lines 15-62): validate, group by owner, build the
drafts, and attempt delivery when `--send` is given; `fo` is the `--owner`
option.  Returns the owner-digest mapping, the drafts, and the attempted
deliveries. -/
def run_main (f : List VRow → List VRow) (header : List String) (rows : List Row)
    (today : Int) (sendFlag : Bool) (fo : Option String) :
    Except LoadError (List (String × Digest) × List (String × Digest) × List String) :=
  match load_and_validate header rows today with
  | Except.error e => Except.error e
  | Except.ok out =>
    let owners := group_by_owner f out
    let drafts := build_drafts owners fo
    let results := if sendFlag then send_emails drafts fo else []
    Except.ok (owners, drafts, results)

/-! ### Concrete frames used by the witnesses and counterexamples -/

/-- A CRM-style export header exercising name normalization and renaming. -/
def hdrMain : List String :=
  ["(Do_Not_Modify) Case", "Case Title", "Owner", "Created On"]

/-- A case of Fadi Hanna created on day 90. -/
def rowFadi : Row :=
  { case_id := some "C1", case_title := some "T1",
    owner_name := some "Fadi Hanna", created_date := some (DateCell.good 90) }

/-- A case of Jana Sweid created on day 80. -/
def rowJana : Row :=
  { case_id := some "C2", case_title := some "T2",
    owner_name := some "Jana Sweid", created_date := some (DateCell.good 80) }

/-- A second case of Fadi Hanna created on day 95. -/
def rowFadi2 : Row :=
  { case_id := some "C3", case_title := some "T3",
    owner_name := some "Fadi Hanna", created_date := some (DateCell.good 95) }

/-- A case of Raji Aoun (owner name unstripped in the export). -/
def rowRaji : Row :=
  { case_id := some "R1", case_title := some "TR",
    owner_name := some "  Raji Aoun ", created_date := some (DateCell.good 70) }

/-- A case of the manager. -/
def rowMgr : Row :=
  { case_id := some "M1", case_title := some "TM",
    owner_name := some "Abdo Khoury", created_date := some (DateCell.good 60) }

/-- `rowFadi` as validated at `today = 100`. -/
def vFadi : VRow :=
  { case_id := some "C1", case_title := some "T1", owner_name := some "Fadi Hanna",
    owner_email := some "FHanna@info-sys.com", created_date := some 90,
    age_days := some 10, priority := some "Medium" }

/-- `rowJana` as validated at `today = 100`. -/
def vJana : VRow :=
  { case_id := some "C2", case_title := some "T2", owner_name := some "Jana Sweid",
    owner_email := some "JSweid@info-sys.com", created_date := some 80,
    age_days := some 20, priority := some "Medium" }

/-- `rowFadi2` as validated at `today = 100`. -/
def vFadi2 : VRow :=
  { case_id := some "C3", case_title := some "T3", owner_name := some "Fadi Hanna",
    owner_email := some "FHanna@info-sys.com", created_date := some 95,
    age_days := some 5, priority := some "Medium" }

/-- Fadi Hanna's digest for the single-case run. -/
def dFadi : Digest :=
  { owner_name := "Fadi Hanna", owner_email := "FHanna@info-sys.com",
    total_cases := 1, top3 := [toCase vFadi], all_cases := [toCase vFadi] }

/-- Jana Sweid's digest for the single-case run. -/
def dJana : Digest :=
  { owner_name := "Jana Sweid", owner_email := "JSweid@info-sys.com",
    total_cases := 1, top3 := [toCase vJana], all_cases := [toCase vJana] }

/-- A validated case of age 5 used by the ranking witness. -/
def vrowA : VRow :=
  { case_id := some "A", case_title := some "TA", owner_name := some "Fadi Hanna",
    owner_email := some "FHanna@info-sys.com", created_date := some 95,
    age_days := some 5, priority := some "Medium" }

/-- A validated case of age 9 used by the ranking witness. -/
def vrowB : VRow :=
  { case_id := some "B", case_title := some "TB", owner_name := some "Fadi Hanna",
    owner_email := some "FHanna@info-sys.com", created_date := some 91,
    age_days := some 9, priority := some "Medium" }

/-- The digest of `[vrowA, vrowB]` under the stable sort. -/
def digestW1 : Digest :=
  { owner_name := "Fadi Hanna", owner_email := "FHanna@info-sys.com",
    total_cases := 2, top3 := [toCase vrowB, toCase vrowA],
    all_cases := [toCase vrowB, toCase vrowA] }

/-- First of two equal-age cases (age 7). -/
def vrowC : VRow :=
  { case_id := some "C", case_title := some "TC", owner_name := some "Fadi Hanna",
    owner_email := some "FHanna@info-sys.com", created_date := some 93,
    age_days := some 7, priority := some "Medium" }

/-- Second of two equal-age cases (age 7). -/
def vrowD : VRow :=
  { case_id := some "D", case_title := some "TD", owner_name := some "Fadi Hanna",
    owner_email := some "FHanna@info-sys.com", created_date := some 93,
    age_days := some 7, priority := some "Medium" }

/-- Header with an explicit age column (`Age` renames to `age_days`). -/
def hdrAge : List String :=
  ["(Do_Not_Modify) Case", "Title", "Owner", "Created On", "Age"]

/-- Row with a numeric explicit age 99 (created day 90). -/
def rowAgeNum : Row :=
  { case_id := some "N1", case_title := some "TN",
    owner_name := some "Fadi Hanna", created_date := some (DateCell.good 90),
    age_days := some (AgeCell.num 99) }

/-- Row with a non-numeric explicit age (created day 80). -/
def rowAgeMiss : Row :=
  { case_id := some "N2", case_title := some "TM2",
    owner_name := some "Jana Sweid", created_date := some (DateCell.good 80),
    age_days := some AgeCell.nonnum }

/-- `rowAgeNum` as validated at `today = 100`: the explicit age wins. -/
def vAgeNum : VRow :=
  { case_id := some "N1", case_title := some "TN", owner_name := some "Fadi Hanna",
    owner_email := some "FHanna@info-sys.com", created_date := some 90,
    age_days := some 99, priority := some "Medium" }

/-- `rowAgeMiss` as validated at `today = 100`: the age falls back to
`today - created_date`. -/
def vAgeMiss : VRow :=
  { case_id := some "N2", case_title := some "TM2", owner_name := some "Jana Sweid",
    owner_email := some "JSweid@info-sys.com", created_date := some 80,
    age_days := some 20, priority := some "Medium" }

/-- Header whose `owner_name` column is missing after normalization. -/
def hdrNoOwner : List String := ["case_id", "case_title", "created_on"]

/-- Header whose `created_date` column is missing after normalization
(spec Scenario D). -/
def hdrNoCreated : List String := ["case_id", "case_title", "owner"]

/-- Header with a priority column. -/
def hdrPrio : List String :=
  ["(Do_Not_Modify) Case", "Title", "Owner", "Created On", "Priority"]

/-- Row with priority `"  high "` (spec Scenario B). -/
def rowPrioHigh : Row :=
  { case_id := some "P1", case_title := some "TP",
    owner_name := some "Fadi Hanna", created_date := some (DateCell.good 90),
    priority := some "  high " }

/-- Row with priority `"urgent"` (spec Scenario B). -/
def rowPrioUrgent : Row :=
  { case_id := some "P2", case_title := some "TQ",
    owner_name := some "Jana Sweid", created_date := some (DateCell.good 80),
    priority := some "urgent" }

/-- `rowPrioHigh` as validated at `today = 100`. -/
def vPrioHigh : VRow :=
  { case_id := some "P1", case_title := some "TP", owner_name := some "Fadi Hanna",
    owner_email := some "FHanna@info-sys.com", created_date := some 90,
    age_days := some 10, priority := some "High" }

/-- `rowPrioUrgent` as validated at `today = 100`. -/
def vPrioUrgent : VRow :=
  { case_id := some "P2", case_title := some "TQ", owner_name := some "Jana Sweid",
    owner_email := some "JSweid@info-sys.com", created_date := some 80,
    age_days := some 20, priority := some "Medium" }

/-- Header on which the two parser variants agree column-wise: every
canonical name is present literally. -/
def hdrBoth : List String :=
  ["case_id", "case_title", "owner_name", "owner_email", "created_date", "age_days"]

/-- A row with an input `owner_email` and an explicit numeric age. -/
def rowBothA : Row :=
  { case_id := some "X1", case_title := some "U1",
    owner_name := some "Fadi Hanna", owner_email := some "fh@x.com",
    created_date := some (DateCell.good 100), age_days := some (AgeCell.num 99) }

/-- A Raji Aoun row with an input `owner_email`. -/
def rowBothB : Row :=
  { case_id := some "X2", case_title := some "U2",
    owner_name := some "Raji Aoun", owner_email := some "raji@x.com",
    created_date := some (DateCell.good 100), age_days := some (AgeCell.num 5) }

/-- `rowBothA` through the feature-complete variant at `today = 110`:
directory email, explicit age 99. -/
def v9Full : VRow :=
  { case_id := some "X1", case_title := some "U1", owner_name := some "Fadi Hanna",
    owner_email := some "FHanna@info-sys.com", created_date := some 100,
    age_days := some 99, priority := some "Medium" }

/-- `rowBothA` through the legacy variant at `today = 110`: input email,
recomputed age 10. -/
def w9a : VRow :=
  { case_id := some "X1", case_title := some "U1", owner_name := some "Fadi Hanna",
    owner_email := some "fh@x.com", created_date := some 100,
    age_days := some 10, priority := some "Medium" }

/-- `rowBothB` through the legacy variant at `today = 110` (not excluded). -/
def w9b : VRow :=
  { case_id := some "X2", case_title := some "U2", owner_name := some "Raji Aoun",
    owner_email := some "raji@x.com", created_date := some 100,
    age_days := some 10, priority := some "Medium" }

/-! ### Helper lemmas -/

/-- The stable insertion sort satisfies the documented sort contract. -/
theorem sortSpec_stable : SortSpec stableSortDesc := fun l =>
  ⟨List.perm_insertionSort rowGe l, List.sorted_insertionSort rowGe l⟩

/-- The tie-reversing sort also satisfies the documented sort contract. -/
theorem sortSpec_tieRev : SortSpec tieReversingSort := fun l =>
  ⟨(List.perm_insertionSort rowGe l.reverse).trans (List.reverse_perm l),
   List.sorted_insertionSort rowGe l.reverse⟩

/-- An entry of the grouper's output is the digest of its key. -/
theorem mem_group_by_owner_eq {f : List VRow → List VRow} {rows : List VRow}
    {k : String} {d : Digest} (h : (k, d) ∈ group_by_owner f rows) :
    d = mkDigest f rows k := by
  rcases List.mem_map.mp h with ⟨k2, _, he⟩
  have h1 : k2 = k := congrArg Prod.fst he
  subst h1
  exact (congrArg Prod.snd he).symm

/-- The ordering survives the projection to case dicts. -/
theorem pairwise_toCase {l : List VRow} (h : l.Pairwise rowGe) :
    (l.map toCase).Pairwise caseGe :=
  List.pairwise_map.mpr (h.imp (fun hab => hab))

/-- A successful run returns exactly the happy-path rows. -/
theorem lv_ok_eq {header : List String} {rows : List Row} {today : Int}
    {out : List VRow}
    (h : load_and_validate header rows today = Except.ok out) :
    out = validRows header rows today := by
  unfold load_and_validate at h
  split at h
  · split at h
    · split at h
      · simp at h
      · injection h with h
        exact h.symm
    · simp at h
  · simp at h

/-- Membership in the happy-path rows: the row survived the final `dropna`
and arises from a filtered row by priority normalization and the
date/age finish. -/
theorem mem_validRows {header : List String} {rows : List Row} {today : Int}
    {v : VRow} (h : v ∈ validRows header rows today) :
    keepRow v = true ∧ ∃ r ∈ filteredRows header rows,
      v = finalizeRow (hasAgeCol header) today (prioritizeRow (hasPriorityCol header) r) := by
  unfold validRows prioritizedRows at h
  have h1 := List.of_mem_filter h
  have h2 := List.mem_of_mem_filter h
  rw [List.map_map] at h2
  rcases List.mem_map.mp h2 with ⟨r, hr, he⟩
  exact ⟨h1, r, hr, he.symm⟩

/-- Filtered rows passed both owner exclusions. -/
theorem mem_filteredRows_excl {header : List String} {rows : List Row} {r : Row}
    (h : r ∈ filteredRows header rows) :
    r.owner_name ≠ some MANAGER_OWNER_NAME ∧ r.owner_name ≠ some "Raji Aoun" := by
  unfold filteredRows at h
  have hraji : notRaji r = true := List.of_mem_filter h
  have h2 := List.mem_of_mem_filter h
  have hmgr : notMgr r = true := List.of_mem_filter h2
  simp only [notMgr, notRaji, decide_eq_true_eq] at hmgr hraji
  exact ⟨hmgr, hraji⟩

/-- Filtered rows come out of the owner-email derivation. -/
theorem mem_filteredRows_derive {header : List String} {rows : List Row} {r : Row}
    (h : r ∈ filteredRows header rows) :
    ∃ r0, r = deriveEmail r0 := by
  unfold filteredRows at h
  have h2 := List.mem_of_mem_filter (List.mem_of_mem_filter h)
  rcases List.mem_map.mp h2 with ⟨r0, _, he⟩
  exact ⟨r0, he.symm⟩

/-- A value produced by an association-list lookup is one of the list's
values. -/
theorem lookup_mem_snd {l : List (String × String)} {k v : String}
    (h : l.lookup k = some v) : v ∈ l.map Prod.snd := by
  induction l with
  | nil => simp [List.lookup] at h
  | cons p l ih =>
    rw [List.lookup] at h
    cases hk : k == p.1 with
    | true =>
      rw [hk] at h
      injection h with h
      exact h ▸ List.mem_cons_self _ _
    | false =>
      rw [hk] at h
      exact List.mem_cons_of_mem _ (ih h)

/-- The synthesized `owner_email` column is always present. -/
theorem hasCol_insertCol (cols : List String) (c : String) :
    hasCol (insertCol cols c) c = true := by
  unfold insertCol
  by_cases h : hasCol cols c = true
  · rw [if_pos h]
    exact h
  · rw [if_neg h]
    unfold hasCol
    simp

/-! ### Claim theorems -/

/-- **C1**: for every sort realization meeting the pandas contract and every
owner digest produced by `group_by_owner`, `top3` holds `min 3 total_cases`
cases, its adjacent (indeed all) pairs are non-increasing in `age_days`,
`top3` together with the rest of `all_cases` is exactly the owner's
partition, and every `top3` entry is at least as old as every entry left
out — i.e. `top3` is exactly the `min(3, total_cases)` oldest cases. -/
theorem C1_top3_ranking (f : List VRow → List VRow) (hf : SortSpec f)
    (rows : List VRow) (k : String) (d : Digest)
    (hd : (k, d) ∈ group_by_owner f rows) :
    d.top3.length = min 3 d.total_cases ∧
    d.top3.Pairwise caseGe ∧
    (d.top3 ++ d.all_cases.drop 3).Perm ((ownerGroup rows k).map toCase) ∧
    ∀ c ∈ d.top3, ∀ c2 ∈ d.all_cases.drop 3, caseGe c c2 := by
  have hdd := mem_group_by_owner_eq hd
  subst hdd
  obtain ⟨hperm, hsorted⟩ := hf (ownerGroup rows k)
  have hPW : ((f (ownerGroup rows k)).map toCase).Pairwise caseGe :=
    pairwise_toCase hsorted
  refine ⟨?_, ?_, ?_, ?_⟩
  · show (((f (ownerGroup rows k)).map toCase).take 3).length =
      min 3 (f (ownerGroup rows k)).length
    rw [List.length_take, List.length_map]
  · exact hPW.sublist (List.take_sublist 3 _)
  · show ((((f (ownerGroup rows k)).map toCase).take 3) ++
      ((f (ownerGroup rows k)).map toCase).drop 3).Perm _
    rw [List.take_append_drop]
    exact hperm.map toCase
  · intro c hc c2 hc2
    rw [← List.take_append_drop 3 ((f (ownerGroup rows k)).map toCase)] at hPW
    exact (List.pairwise_append.mp hPW).2.2 c hc c2 hc2

/-- Witness for C1 at a concrete two-case owner. -/
theorem C1_top3_ranking_witness :
    SortSpec stableSortDesc ∧
    ("FHanna@info-sys.com", digestW1) ∈ group_by_owner stableSortDesc [vrowA, vrowB] ∧
    (digestW1.top3.length = min 3 digestW1.total_cases ∧
     digestW1.top3.Pairwise caseGe ∧
     (digestW1.top3 ++ digestW1.all_cases.drop 3).Perm
       ((ownerGroup [vrowA, vrowB] "FHanna@info-sys.com").map toCase) ∧
     ∀ c ∈ digestW1.top3, ∀ c2 ∈ digestW1.all_cases.drop 3, caseGe c c2) := by
  have hmem : ("FHanna@info-sys.com", digestW1) ∈
      group_by_owner stableSortDesc [vrowA, vrowB] := by
    have he : group_by_owner stableSortDesc [vrowA, vrowB] =
        [("FHanna@info-sys.com", digestW1)] := rfl
    rw [he]
    exact List.mem_singleton.mpr rfl
  exact ⟨sortSpec_stable, hmem,
    C1_top3_ranking stableSortDesc sortSpec_stable [vrowA, vrowB]
      "FHanna@info-sys.com" digestW1 hmem⟩

/-- **C2** (supporting theorem): the sort contract that
`sort_values("age_days", ascending=False)` documents for the default
`kind="quicksort"` does not fix the order of equal ages.  `tieReversingSort`
meets the contract at the concrete two-case partition yet `group_by_owner`
built on it emits the two equal-age cases in reversed input order, while the
stable realization preserves the input order.  Stability is therefore not a
consequence of the code, which passes no `kind`. -/
theorem C2_tie_order_demo :
    (tieReversingSort (ownerGroup [vrowC, vrowD] "FHanna@info-sys.com")).Perm
      (ownerGroup [vrowC, vrowD] "FHanna@info-sys.com") ∧
    (tieReversingSort (ownerGroup [vrowC, vrowD] "FHanna@info-sys.com")).Pairwise rowGe ∧
    vrowC.age_days = vrowD.age_days ∧ vrowC ≠ vrowD ∧
    group_by_owner tieReversingSort [vrowC, vrowD] =
      [("FHanna@info-sys.com",
        { owner_name := "Fadi Hanna", owner_email := "FHanna@info-sys.com",
          total_cases := 2, top3 := [toCase vrowD, toCase vrowC],
          all_cases := [toCase vrowD, toCase vrowC] })] ∧
    group_by_owner stableSortDesc [vrowC, vrowD] =
      [("FHanna@info-sys.com",
        { owner_name := "Fadi Hanna", owner_email := "FHanna@info-sys.com",
          total_cases := 2, top3 := [toCase vrowC, toCase vrowD],
          all_cases := [toCase vrowC, toCase vrowD] })] :=
  ⟨(sortSpec_tieRev _).1, (sortSpec_tieRev _).2, rfl, by decide, rfl, rfl⟩

/-- `List.contains` agrees with membership for strings. -/
theorem contains_iff_mem {l : List String} {s : String} :
    l.contains s = true ↔ s ∈ l :=
  List.elem_iff

/-- **C4**: every validated row's age obeys the source's age policy: with an
`age_days` column the numerically coerced explicit value wins and only
missing/non-numeric entries fall back to `today - created_date` in days;
without the column every age is `today - created_date`.  The same `today`
parameter serves the whole run. -/
theorem C4_age_policy (header : List String) (rows : List Row) (today : Int)
    (out : List VRow)
    (h : load_and_validate header rows today = Except.ok out) :
    ∀ v ∈ out, ∃ r ∈ filteredRows header rows,
      v = finalizeRow (hasAgeCol header) today (prioritizeRow (hasPriorityCol header) r) ∧
      v.created_date = parseDate r.created_date ∧
      v.age_days =
        (if hasAgeCol header then
          match coerceAge r.age_days with
          | some n => some n
          | none => (parseDate r.created_date).map (fun d => today - d)
         else (parseDate r.created_date).map (fun d => today - d)) := by
  intro v hv
  rw [lv_ok_eq h] at hv
  obtain ⟨_, r, hr, hveq⟩ := mem_validRows hv
  refine ⟨r, hr, hveq, ?_, ?_⟩
  · rw [hveq]
    rfl
  · rw [hveq]
    rfl

/-- Witness for C4: a frame with an explicit `Age` column; the numeric 99
survives, the non-numeric entry falls back to `100 - 80 = 20`. -/
theorem C4_age_policy_witness :
    load_and_validate hdrAge [rowAgeNum, rowAgeMiss] 100 =
      Except.ok [vAgeNum, vAgeMiss] ∧
    vAgeNum ∈ [vAgeNum, vAgeMiss] ∧ vAgeNum.age_days = some 99 ∧
    vAgeMiss ∈ [vAgeNum, vAgeMiss] ∧ vAgeMiss.age_days = some 20 ∧
    (∃ r ∈ filteredRows hdrAge [rowAgeNum, rowAgeMiss],
      vAgeNum = finalizeRow (hasAgeCol hdrAge) 100
        (prioritizeRow (hasPriorityCol hdrAge) r) ∧
      vAgeNum.created_date = parseDate r.created_date ∧
      vAgeNum.age_days =
        (if hasAgeCol hdrAge then
          match coerceAge r.age_days with
          | some n => some n
          | none => (parseDate r.created_date).map (fun d => (100 : Int) - d)
         else (parseDate r.created_date).map (fun d => (100 : Int) - d))) :=
  ⟨rfl, List.mem_cons_self _ _, rfl, List.mem_cons_of_mem _ (List.mem_cons_self _ _), rfl,
    C4_age_policy hdrAge [rowAgeNum, rowAgeMiss] 100 [vAgeNum, vAgeMiss] rfl
      vAgeNum (List.mem_cons_self _ _)⟩

/-- `normalizePriority` on a present column and value, with the `getD`
reduced. -/
theorem normalizePriority_true_some (s : String) :
    normalizePriority true (some s) =
      if VALID_PRIORITIES.contains (pyCapitalize (pyStrip s)) = true
      then pyCapitalize (pyStrip s) else "Medium" := rfl

/-- **C6**: priority normalization — an absent column or a missing value
yields "Medium"; a present value is stripped and capitalized, kept when in
the valid set and coerced to "Medium" otherwise; `"  high "` becomes "High"
and `"urgent"` becomes "Medium"; the step is a total per-row rewrite whose
result is always a valid priority (it has no failure path), and every
validated row carries exactly the normalized priority of its source row. -/
theorem C6_priority_normalization (header : List String) (rows : List Row)
    (today : Int) (out : List VRow)
    (h : load_and_validate header rows today = Except.ok out) :
    (∀ v ∈ out, ∃ r ∈ filteredRows header rows,
      v.priority = some (normalizePriority (hasPriorityCol header) r.priority)) ∧
    (∀ p, normalizePriority false p = "Medium") ∧
    normalizePriority true none = "Medium" ∧
    (∀ s, pyCapitalize (pyStrip s) ∈ VALID_PRIORITIES →
      normalizePriority true (some s) = pyCapitalize (pyStrip s)) ∧
    (∀ s, pyCapitalize (pyStrip s) ∉ VALID_PRIORITIES →
      normalizePriority true (some s) = "Medium") ∧
    normalizePriority true (some "  high ") = "High" ∧
    normalizePriority true (some "urgent") = "Medium" ∧
    (∀ (hasP : Bool) (p : Option String),
      normalizePriority hasP p ∈ VALID_PRIORITIES) := by
  refine ⟨?_, fun p => rfl, rfl, ?_, ?_, rfl, rfl, ?_⟩
  · intro v hv
    rw [lv_ok_eq h] at hv
    obtain ⟨_, r, hr, hveq⟩ := mem_validRows hv
    exact ⟨r, hr, by rw [hveq]; rfl⟩
  · intro s hs
    have hq : VALID_PRIORITIES.contains (pyCapitalize (pyStrip s)) = true :=
      contains_iff_mem.mpr hs
    rw [normalizePriority_true_some, if_pos hq]
  · intro s hs
    have hq : ¬ VALID_PRIORITIES.contains (pyCapitalize (pyStrip s)) = true :=
      fun hc => hs (contains_iff_mem.mp hc)
    rw [normalizePriority_true_some, if_neg hq]
  · intro hasP p
    cases hasP with
    | false => exact (by decide : ("Medium" : String) ∈ VALID_PRIORITIES)
    | true =>
      cases p with
      | none =>
        rw [(rfl : normalizePriority true none = "Medium")]
        exact (by decide : ("Medium" : String) ∈ VALID_PRIORITIES)
      | some s =>
        rw [normalizePriority_true_some]
        by_cases hq : VALID_PRIORITIES.contains (pyCapitalize (pyStrip s)) = true
        · rw [if_pos hq]
          exact contains_iff_mem.mp hq
        · rw [if_neg hq]
          exact (by decide : ("Medium" : String) ∈ VALID_PRIORITIES)

/-- Witness for C6: Scenario B — `"  high "` normalizes to "High",
`"urgent"` to "Medium", as delivered by the pipeline. -/
theorem C6_priority_normalization_witness :
    load_and_validate hdrPrio [rowPrioHigh, rowPrioUrgent] 100 =
      Except.ok [vPrioHigh, vPrioUrgent] ∧
    vPrioHigh.priority = some "High" ∧ vPrioUrgent.priority = some "Medium" ∧
    normalizePriority true (some "  high ") = "High" ∧
    normalizePriority true (some "urgent") = "Medium" := by
  have hc := C6_priority_normalization hdrPrio [rowPrioHigh, rowPrioUrgent] 100
    [vPrioHigh, vPrioUrgent] rfl
  exact ⟨rfl, rfl, rfl, hc.2.2.2.2.2.1, hc.2.2.2.2.2.2.1⟩

/-- **C7**: no case of the manager ("Abdo Khoury") or of the block-listed
"Raji Aoun" (equality on the stripped owner name, as the source compares)
ever appears in any digest: every case dict of every digest built from a
validated run comes from a validated row whose owner name is neither. -/
theorem C7_exclusion (f : List VRow → List VRow) (hf : SortSpec f)
    (header : List String) (rows : List Row) (today : Int) (out : List VRow)
    (h : load_and_validate header rows today = Except.ok out)
    (k : String) (d : Digest) (hd : (k, d) ∈ group_by_owner f out)
    (c : Case) (hc : c ∈ d.top3 ∨ c ∈ d.all_cases) :
    ∃ v ∈ out, c = toCase v ∧
      v.owner_name ≠ some MANAGER_OWNER_NAME ∧ v.owner_name ≠ some "Raji Aoun" := by
  have hdd := mem_group_by_owner_eq hd
  subst hdd
  have hcall : c ∈ (f (ownerGroup out k)).map toCase := by
    rcases hc with hc | hc
    · exact List.mem_of_mem_take hc
    · exact hc
  rcases List.mem_map.mp hcall with ⟨w, hw, hwc⟩
  have hw2 : w ∈ ownerGroup out k := ((hf _).1.mem_iff).mp hw
  have hw3 : w ∈ out := List.mem_of_mem_filter hw2
  have hout := lv_ok_eq h
  obtain ⟨_, r, hr, hveq⟩ := mem_validRows (hout ▸ hw3)
  have hex := mem_filteredRows_excl hr
  refine ⟨w, hw3, hwc.symm, ?_, ?_⟩
  · rw [hveq]
    exact hex.1
  · rw [hveq]
    exact hex.2

/-- Witness for C7: a run containing a manager row and a (padded) Raji Aoun
row; both are excluded, the sole digest case comes from Fadi Hanna. -/
theorem C7_exclusion_witness :
    SortSpec stableSortDesc ∧
    load_and_validate hdrMain [rowFadi, rowRaji, rowMgr] 100 = Except.ok [vFadi] ∧
    ("FHanna@info-sys.com", dFadi) ∈ group_by_owner stableSortDesc [vFadi] ∧
    toCase vFadi ∈ dFadi.top3 ∧
    (∃ v ∈ [vFadi], toCase vFadi = toCase v ∧
      v.owner_name ≠ some MANAGER_OWNER_NAME ∧ v.owner_name ≠ some "Raji Aoun") := by
  have hmem : ("FHanna@info-sys.com", dFadi) ∈ group_by_owner stableSortDesc [vFadi] := by
    have he : group_by_owner stableSortDesc [vFadi] = [("FHanna@info-sys.com", dFadi)] := rfl
    rw [he]
    exact List.mem_singleton.mpr rfl
  have htop : toCase vFadi ∈ dFadi.top3 := by
    have he : dFadi.top3 = [toCase vFadi] := rfl
    rw [he]
    exact List.mem_singleton.mpr rfl
  exact ⟨sortSpec_stable, rfl, hmem, htop,
    C7_exclusion stableSortDesc sortSpec_stable hdrMain [rowFadi, rowRaji, rowMgr] 100
      [vFadi] rfl "FHanna@info-sys.com" dFadi hmem (toCase vFadi) (Or.inl htop)⟩

/-- Inversion of a successful `run_main`. -/
theorem run_main_ok {f : List VRow → List VRow} {header : List String}
    {rows : List Row} {today : Int} {send : Bool} {fo : Option String}
    {o d : List (String × Digest)} {res : List String}
    (h : run_main f header rows today send fo = Except.ok (o, d, res)) :
    ∃ out, load_and_validate header rows today = Except.ok out ∧
      o = group_by_owner f out ∧ d = build_drafts o fo ∧
      res = (if send then send_emails d fo else []) := by
  unfold run_main at h
  cases hlv : load_and_validate header rows today with
  | error e =>
    rw [hlv] at h
    simp at h
  | ok out =>
    rw [hlv] at h
    injection h with h2
    have ho : o = group_by_owner f out := (congrArg (fun x => x.1) h2).symm
    have hd : d = build_drafts (group_by_owner f out) fo :=
      (congrArg (fun x => x.2.1) h2).symm
    have hres : res =
        (if send then send_emails (build_drafts (group_by_owner f out) fo) fo else []) :=
      (congrArg (fun x => x.2.2) h2).symm
    rw [← ho] at hd
    rw [← ho, ← hd] at hres
    exact ⟨out, rfl, ho, hd, hres⟩

/-- A non-skipped owner under a non-empty filter is the filtered owner. -/
theorem skipOwner_eq_false {fo k : String} (hfo : fo ≠ "")
    (h : skipOwner (some fo) k = false) : k = fo := by
  have hs : skipOwner (some fo) k = (decide (fo ≠ "") && decide (k ≠ fo)) := rfl
  rw [hs, decide_eq_true hfo, Bool.true_and] at h
  exact not_not.mp (of_decide_eq_false h)

/-- The filtered owner itself is never skipped. -/
theorem skipOwner_self (fo : String) : skipOwner (some fo) fo = false := by
  unfold skipOwner
  simp

/-- **C3 (amended)**: with `--owner fo` supplied (non-empty), drafts are
built and delivery attempted only for `fo`, and `fo`'s own digest, when it
exists in the owner mapping, does get a draft; the owner-digest mapping
itself is still computed for every owner (see the counterexample). -/
theorem C3_single_owner_filter (f : List VRow → List VRow) (header : List String)
    (rows : List Row) (today : Int) (fo : String) (hfo : fo ≠ "")
    (o d : List (String × Digest)) (res : List String)
    (h : run_main f header rows today true (some fo) = Except.ok (o, d, res)) :
    (∀ p ∈ d, p.1 = fo) ∧ (∀ e ∈ res, e = fo) ∧
    (∀ dg : Digest, (fo, dg) ∈ o → (fo, dg) ∈ d) ∧
    (∀ dg : Digest, (fo, dg) ∈ d → fo ∈ res) := by
  obtain ⟨out, _, ho, hd, hres⟩ := run_main_ok h
  subst hd
  refine ⟨?_, ?_, ?_, ?_⟩
  · intro p hp
    have hskip := List.of_mem_filter hp
    rw [Bool.not_eq_true'] at hskip
    exact skipOwner_eq_false hfo hskip
  · intro e he
    rw [hres, if_pos rfl] at he
    rcases List.mem_map.mp he with ⟨p, hp, hpe⟩
    have hskip := List.of_mem_filter hp
    rw [Bool.not_eq_true'] at hskip
    rw [← hpe]
    exact skipOwner_eq_false hfo hskip
  · intro dg hdg
    exact List.mem_filter.mpr ⟨hdg, by rw [skipOwner_self]; rfl⟩
  · intro dg hdg
    rw [hres, if_pos rfl]
    exact List.mem_map.mpr
      ⟨(fo, dg), List.mem_filter.mpr ⟨hdg, by rw [skipOwner_self]; rfl⟩, rfl⟩

/-- Witness for C3's amended claim at the concrete two-owner run. -/
theorem C3_single_owner_filter_witness :
    ("FHanna@info-sys.com" : String) ≠ "" ∧
    run_main stableSortDesc hdrMain [rowFadi, rowJana] 100 true
        (some "FHanna@info-sys.com") =
      Except.ok ([("FHanna@info-sys.com", dFadi), ("JSweid@info-sys.com", dJana)],
        [("FHanna@info-sys.com", dFadi)], ["FHanna@info-sys.com"]) ∧
    ((∀ p ∈ [("FHanna@info-sys.com", dFadi)], p.1 = "FHanna@info-sys.com") ∧
     (∀ e ∈ ["FHanna@info-sys.com"], e = "FHanna@info-sys.com") ∧
     (∀ dg : Digest,
        ("FHanna@info-sys.com", dg) ∈
          [("FHanna@info-sys.com", dFadi), ("JSweid@info-sys.com", dJana)] →
        ("FHanna@info-sys.com", dg) ∈ [("FHanna@info-sys.com", dFadi)]) ∧
     (∀ dg : Digest, ("FHanna@info-sys.com", dg) ∈ [("FHanna@info-sys.com", dFadi)] →
        "FHanna@info-sys.com" ∈ ["FHanna@info-sys.com"])) :=
  ⟨by decide, rfl,
    C3_single_owner_filter stableSortDesc hdrMain [rowFadi, rowJana] 100
      "FHanna@info-sys.com" (by decide) _ _ _ rfl⟩

/-- **C3 (counterexample)**: in the same run the owner-digest mapping built
by the grouping step still contains the digest of the other owner
"JSweid@info-sys.com" — it is built, only its draft and delivery are
skipped — refuting "digests for every other owner are not built". -/
theorem C3_counterexample :
    run_main stableSortDesc hdrMain [rowFadi, rowJana] 100 true
        (some "FHanna@info-sys.com") =
      Except.ok ([("FHanna@info-sys.com", dFadi), ("JSweid@info-sys.com", dJana)],
        [("FHanna@info-sys.com", dFadi)], ["FHanna@info-sys.com"]) ∧
    ("JSweid@info-sys.com", dJana) ∈
      [("FHanna@info-sys.com", dFadi), ("JSweid@info-sys.com", dJana)] ∧
    ("JSweid@info-sys.com" : String) ≠ "FHanna@info-sys.com" ∧
    (∀ p ∈ [("FHanna@info-sys.com", dFadi)], p.1 ≠ "JSweid@info-sys.com") ∧
    (∀ e ∈ ["FHanna@info-sys.com"], e ≠ "JSweid@info-sys.com") := by
  refine ⟨rfl, List.mem_cons_of_mem _ (List.mem_cons_self _ _), by decide, by decide, by decide⟩

/-- **C5 (amended)**: when a required column is missing after normalization
(with the derived `owner_email` counted as present, as the spec's normalizer
produces it), the run always aborts with no validated output; the
descriptive required-column error is the abort mode whenever `owner_name`
itself is present — a missing `owner_name` aborts earlier with an uncaught
column-lookup `KeyError` (see the counterexample). -/
theorem C5_missing_required (header : List String) (rows : List Row) (today : Int)
    (hmiss : ∃ c ∈ REQUIRED_COLUMNS, hasCol (cols1 header) c = false) :
    (∃ e, load_and_validate header rows today = Except.error e) ∧
    (hasCol (canonCols header) "owner_name" = true →
      load_and_validate header rows today =
        Except.error (LoadError.missingColumns (missingRequired header)) ∧
      missingRequired header ≠ []) := by
  have hne : missingRequired header ≠ [] := by
    obtain ⟨c, hc, hf⟩ := hmiss
    intro hemp
    have hcm : c ∈ missingRequired header :=
      List.mem_filter.mpr ⟨hc, by rw [hf]; rfl⟩
    rw [hemp] at hcm
    cases hcm
  by_cases how : hasCol (canonCols header) "owner_name" = true
  · have heq : load_and_validate header rows today =
        Except.error (LoadError.missingColumns (missingRequired header)) := by
      unfold load_and_validate
      rw [if_pos how, if_neg hne]
    exact ⟨⟨_, heq⟩, fun _ => ⟨heq, hne⟩⟩
  · have heq : load_and_validate header rows today =
        Except.error (LoadError.keyError "owner_name") := by
      unfold load_and_validate
      rw [if_neg how]
    exact ⟨⟨_, heq⟩, fun hcontra => absurd hcontra how⟩

/-- Witness for C5's amended claim: Scenario D, a frame without
`created_date` aborts with the descriptive missing-column error. -/
theorem C5_missing_required_witness :
    (∃ c ∈ REQUIRED_COLUMNS, hasCol (cols1 hdrNoCreated) c = false) ∧
    (∃ e, load_and_validate hdrNoCreated [rowFadi] 0 = Except.error e) ∧
    (hasCol (canonCols hdrNoCreated) "owner_name" = true →
      load_and_validate hdrNoCreated [rowFadi] 0 =
        Except.error (LoadError.missingColumns (missingRequired hdrNoCreated)) ∧
      missingRequired hdrNoCreated ≠ []) := by
  have hm : ∃ c ∈ REQUIRED_COLUMNS, hasCol (cols1 hdrNoCreated) c = false :=
    ⟨"created_date", by decide, rfl⟩
  exact ⟨hm, C5_missing_required hdrNoCreated [rowFadi] 0 hm⟩

/-- **C5 (counterexample)**: a frame missing the `owner_name` column (still
missing a required column after normalization) does not reach the
descriptive required-column error: it aborts through the uncaught
`KeyError` of line 63, so the claim's "aborts with a descriptive fatal
error" fails for this required column. -/
theorem C5_counterexample :
    (∃ c ∈ REQUIRED_COLUMNS, hasCol (cols1 hdrNoOwner) c = false) ∧
    load_and_validate hdrNoOwner [rowFadi] 0 =
      Except.error (LoadError.keyError "owner_name") ∧
    (∀ m, load_and_validate hdrNoOwner [rowFadi] 0 ≠
      Except.error (LoadError.missingColumns m)) ∧
    (∀ out, load_and_validate hdrNoOwner [rowFadi] 0 ≠ Except.ok out) := by
  have heval : load_and_validate hdrNoOwner [rowFadi] 0 =
      Except.error (LoadError.keyError "owner_name") := rfl
  refine ⟨⟨"owner_name", by decide, rfl⟩, heval, ?_, ?_⟩
  · intro m hcontra
    rw [heval] at hcontra
    simp at hcontra
  · intro out hcontra
    rw [heval] at hcontra
    simp at hcontra

/-- Summing an indicator over a duplicate-free list containing `e` gives 1. -/
theorem indicator_sum_one {ks : List String} {e : String}
    (hnd : ks.Nodup) (he : e ∈ ks) :
    (ks.map (fun k => if e = k then (1 : Nat) else 0)).sum = 1 := by
  induction ks with
  | nil => cases he
  | cons k ks ih =>
    rcases List.mem_cons.mp he with rfl | hmem
    · rw [List.map_cons, List.sum_cons, if_pos rfl]
      have hz : (ks.map (fun k2 => if e = k2 then (1 : Nat) else 0)).sum = 0 := by
        apply List.sum_eq_zero
        intro x hx
        rcases List.mem_map.mp hx with ⟨k2, hk2, rfl⟩
        have hne : e ≠ k2 := fun hh => (List.nodup_cons.mp hnd).1 (hh ▸ hk2)
        rw [if_neg hne]
      rw [hz]
    · have hne : e ≠ k := fun hh => (List.nodup_cons.mp hnd).1 (hh ▸ hmem)
      rw [List.map_cons, List.sum_cons, if_neg hne,
        ih (List.nodup_cons.mp hnd).2 hmem]

/-- Prepending a row adds one to exactly its owner's partition length. -/
theorem sum_ownerGroup_cons (ks : List String) (r : VRow) (rs : List VRow)
    (e : String) (hre : r.owner_email = some e) :
    (ks.map (fun k => (ownerGroup (r :: rs) k).length)).sum =
      (ks.map (fun k => (ownerGroup rs k).length)).sum +
      (ks.map (fun k => if e = k then (1 : Nat) else 0)).sum := by
  induction ks with
  | nil => rfl
  | cons k ks ih =>
    rw [List.map_cons, List.sum_cons, List.map_cons, List.sum_cons,
      List.map_cons, List.sum_cons, ih]
    have hg : (ownerGroup (r :: rs) k).length =
        (ownerGroup rs k).length + (if e = k then (1 : Nat) else 0) := by
      unfold ownerGroup
      rw [List.filter_cons]
      by_cases hek : e = k
      · subst hek
        have hcond : (decide (r.owner_email = some e)) = true := by
          rw [hre]
          exact decide_eq_true rfl
        rw [hcond, if_pos rfl, List.length_cons, if_pos rfl]
      · have hcond : (decide (r.owner_email = some k)) = false := by
          rw [hre]
          exact decide_eq_false (fun hh => hek (Option.some.inj hh))
        rw [hcond, if_neg (by simp), if_neg hek]
        rfl
    rw [hg]
    omega

/-- Partition sizes over the distinct keys sum to the number of rows, when
every row carries one of the keys and the keys are duplicate-free. -/
theorem sum_ownerGroup_lengths (ks : List String) (rows : List VRow)
    (hnd : ks.Nodup) (hcov : ∀ r ∈ rows, ∃ k ∈ ks, r.owner_email = some k) :
    (ks.map (fun k => (ownerGroup rows k).length)).sum = rows.length := by
  induction rows with
  | nil =>
    apply List.sum_eq_zero
    intro x hx
    rcases List.mem_map.mp hx with ⟨k, _, rfl⟩
    rfl
  | cons r rs ih =>
    obtain ⟨e, he, hre⟩ := hcov r (List.mem_cons_self r rs)
    rw [sum_ownerGroup_cons ks r rs e hre, indicator_sum_one hnd he,
      ih (fun r2 h2 => hcov r2 (List.mem_cons_of_mem r h2))]
    rfl

/-- **C8**: the `total_cases` of the digests sum to the number of rows that
survived validation: `groupby` partitions the validated rows exactly, no
case is counted twice or lost. -/
theorem C8_total_conservation (f : List VRow → List VRow) (hf : SortSpec f)
    (header : List String) (rows : List Row) (today : Int) (out : List VRow)
    (h : load_and_validate header rows today = Except.ok out) :
    ((group_by_owner f out).map (fun p => p.2.total_cases)).sum = out.length := by
  have hmap : (group_by_owner f out).map (fun p => p.2.total_cases) =
      (ownerKeys out).map (fun k => (ownerGroup out k).length) := by
    unfold group_by_owner
    rw [List.map_map]
    apply List.map_congr_left
    intro k _
    exact ((hf (ownerGroup out k)).1).length_eq
  rw [hmap]
  apply sum_ownerGroup_lengths
  · exact List.nodup_dedup _
  · intro r hr
    obtain ⟨hkeep, _⟩ := mem_validRows ((lv_ok_eq h) ▸ hr)
    unfold keepRow at hkeep
    rw [Bool.and_eq_true] at hkeep
    have hsome : r.owner_email.isSome = true := hkeep.1
    rcases Option.isSome_iff_exists.mp hsome with ⟨e, he⟩
    refine ⟨e, ?_, he⟩
    unfold ownerKeys
    exact List.mem_dedup.mpr (List.mem_filterMap.mpr ⟨r, hr, he⟩)

/-- Witness for C8: three validated cases over two owners, totals 2 + 1. -/
theorem C8_total_conservation_witness :
    SortSpec stableSortDesc ∧
    load_and_validate hdrMain [rowFadi, rowJana, rowFadi2] 100 =
      Except.ok [vFadi, vJana, vFadi2] ∧
    ((group_by_owner stableSortDesc [vFadi, vJana, vFadi2]).map
      (fun p => p.2.total_cases)).sum = 3 :=
  ⟨sortSpec_stable, rfl,
    C8_total_conservation stableSortDesc sortSpec_stable hdrMain
      [rowFadi, rowJana, rowFadi2] 100 [vFadi, vJana, vFadi2] rfl⟩

/-- **C10**: the `owner_email` column is synthesized before the
required-column check, so that check can never report `owner_email`
(the corresponding fatal branch is unreachable); and every validated row has
a present `case_id` and an `owner_email` that is one of the owner
directory's addresses. -/
theorem C10_owner_email_synthesized (header : List String) (rows : List Row)
    (today : Int) :
    (∀ m, load_and_validate header rows today =
        Except.error (LoadError.missingColumns m) → "owner_email" ∉ m) ∧
    (∀ out, load_and_validate header rows today = Except.ok out →
      ∀ v ∈ out, v.case_id.isSome = true ∧
        ∃ e, v.owner_email = some e ∧ e ∈ OWNER_EMAIL_MAP.map Prod.snd) := by
  constructor
  · intro m hm
    unfold load_and_validate at hm
    split at hm
    · split at hm
      · split at hm
        · simp at hm
        · simp at hm
      · injection hm with hm
        injection hm with hm
        subst hm
        intro hin
        have hf := List.of_mem_filter hin
        unfold cols1 at hf
        rw [hasCol_insertCol] at hf
        simp at hf
    · simp at hm
  · intro out hout v hv
    rw [lv_ok_eq hout] at hv
    obtain ⟨hkeep, r, hr, hveq⟩ := mem_validRows hv
    unfold keepRow at hkeep
    rw [Bool.and_eq_true] at hkeep
    refine ⟨hkeep.2, ?_⟩
    obtain ⟨r0, hr0⟩ := mem_filteredRows_derive hr
    have hve : v.owner_email = (deriveEmail r0).owner_email := by
      rw [hveq, hr0]
      rfl
    rcases Option.isSome_iff_exists.mp hkeep.1 with ⟨e, he⟩
    refine ⟨e, he, ?_⟩
    rw [hve] at he
    rcases Option.bind_eq_some.mp he with ⟨s, _, hs2⟩
    exact lookup_mem_snd hs2

/-- **C9**: the two coexisting `load_and_validate` implementations diverge on
one concrete input: the feature-complete variant (`src/src/parser.py`)
excludes the Raji Aoun row, overwrites the input `owner_email` with the
directory lookup, and lets the explicit `age_days` value 99 take precedence;
the legacy variant (`src/Src/parser.py`) keeps the Raji Aoun row, keeps the
input `owner_email`, and recomputes the age from `created_date` (10 days),
ignoring the explicit 99. -/
theorem C9_variants_diverge :
    load_and_validate hdrBoth [rowBothA, rowBothB] 110 = Except.ok [v9Full] ∧
    SrcVariant.load_and_validate hdrBoth [rowBothA, rowBothB] 110 =
      Except.ok [w9a, w9b] ∧
    rowBothA.age_days = some (AgeCell.num 99) ∧
    v9Full.age_days = some 99 ∧ w9a.age_days = some 10 ∧
    v9Full.owner_email = some "FHanna@info-sys.com" ∧
    w9a.owner_email = some "fh@x.com" ∧
    rowBothB.owner_name = some "Raji Aoun" ∧ w9b.owner_name = some "Raji Aoun" :=
  ⟨rfl, rfl, rfl, rfl, rfl, rfl, rfl, rfl, rfl⟩

end AKFollowup
